import Mathlib

/-!
Shallow embedding of the `bq-orm` query-construction and result-reassembly
engine (`src/utils.ts`, `src/op.ts`, `src/dataTypes.ts`, `src/model.ts`).

Conventions of the embedding:
* JavaScript objects appearing as ordered string-keyed records are modelled
  as association lists `List (String × α)`; `Object.assign` / property
  assignment overwrite the first matching key in place (preserving key
  order) and otherwise append, exactly as JS object semantics do.
* Scalar JS values (row cells, bound parameters) are modelled by `Value`;
  a missing property (`undefined`) reads as `Value.null`, which is adequate
  here because the source only tests such reads with `== null` (true for
  both `null` and `undefined`) or compares them against non-null keys.
* Fallible code (`throw new Error`) is modelled with `Except String`.
-/

namespace BqOrm

/-- Scalar JavaScript value: a row cell or a bound query parameter. -/
inductive Value where
  | null : Value
  | bool : Bool → Value
  | int : Int → Value
  | str : String → Value
  deriving DecidableEq, Repr

/-- Property lookup on a JS object modelled as an association list
(first occurrence wins, like JS objects which have unique keys). -/
def lookupKey (o : List (String × α)) (k : String) : Option α :=
  (o.find? (fun p => p.1 = k)).map (·.2)

/-- JS property assignment `o[k] = v`: overwrite the existing key in place
(keeping key order) or append a new key at the end. -/
def objSet (o : List (String × α)) (k : String) (v : α) : List (String × α) :=
  if o.any (fun p => p.1 = k) then
    o.map (fun p => if p.1 = k then (k, v) else p)
  else
    o ++ [(k, v)]

/-- `Object.assign(base, upd)`: assign every key of `upd`, in order, onto
`base`. -/
def objAssign (base upd : List (String × α)) : List (String × α) :=
  upd.foldl (fun acc p => objSet acc p.1 p.2) base

/-- Row returned by the warehouse for a SELECT: column name to cell value. -/
abbrev Row := List (String × Value)

/-- Read a row column the way the source reads `row[key]`: a missing column
(`undefined`) is collapsed to `Value.null` (see module conventions). -/
def getVal (row : Row) (k : String) : Value :=
  (lookupKey row k).getD Value.null

/-- `name.toLowerCase()` on a character-by-character basis (the names in
this development are ASCII, for which this agrees with JS
`toLowerCase`). -/
def lowerStr (s : String) : String := String.mk (s.data.map Char.toLower)

/-- The operator table of `src/op.ts` (`export const Op = {...}`). -/
def opTable : String → Option String
  | "eq" => some "="
  | "ne" => some "!="
  | "gt" => some ">"
  | "gte" => some ">="
  | "lt" => some "<"
  | "lte" => some "<="
  | "like" => some "LIKE"
  | "notLike" => some "NOT LIKE"
  | "in" => some "IN"
  | "notIn" => some "NOT IN"
  | "between" => some "BETWEEN"
  | "notBetween" => some "NOT BETWEEN"
  | "is" => some "IS"
  | "isNot" => some "IS NOT"
  | "and" => some "AND"
  | "or" => some "OR"
  | "not" => some "NOT"
  | "any" => some "ANY"
  | "all" => some "ALL"
  | "contains" => some "@>"
  | "contained" => some "<@"
  | "add" => some "+"
  | _ => none

/-- `Op[opKey] || "="` of `buildWhereClause`: every table entry is a truthy
string, so only an unknown key falls back to equality. -/
def opOrEq (k : String) : String := (opTable k).getD "="

/-- `Op[key as Operator]` for the reserved combinator keys `and` / `or`. -/
def opKeyword (k : String) : String := (opTable k).getD ""

mutual
/-- Value side of one entry of a `WhereOptions` filter tree
(`src/model.ts` `WhereOptions`): a scalar literal, an IN-array of scalars,
an operator map `{operator: value}`, or — under the reserved keys
`and`/`or` — an array of nested filter trees. -/
inductive WVal where
  | scalar : Value → WVal
  | varr : List Value → WVal
  | omap : List (String × Value) → WVal
  | sub : List WTree → WVal

/-- A `WhereOptions` filter tree: an ordered JS object of entries. -/
inductive WTree where
  | mk : List (String × WVal) → WTree
end

/-- Entries of a filter tree. -/
def WTree.entries : WTree → List (String × WVal)
  | .mk es => es

mutual
/-- `buildWhereClause` of `src/utils.ts`, on a whole filter tree: returns
the SQL fragment, the generated parameter map and the next parameter
index.  (The source also takes a `params` argument, but never reads it —
it only returns the locally generated parameters — so it is dropped
here.) -/
def buildWhereClause (w : WTree) (paramIndex : Nat) :
    String × List (String × Value) × Nat :=
  match w with
  | .mk entries =>
    let r := bwcEntries entries paramIndex
    (String.intercalate " AND " r.1, r.2.1, r.2.2)

/-- The `for (const [key, value] of Object.entries(where))` loop of
`buildWhereClause`: clause list, accumulated local params, running index. -/
def bwcEntries : List (String × WVal) → Nat →
    List String × List (String × Value) × Nat
  | [], i => ([], [], i)
  | (k, v) :: rest, i =>
    let e := bwcEntry k v i
    let r := bwcEntries rest e.2.2
    (e.1 :: r.1, objAssign e.2.1 r.2.1, r.2.2)

/-- One iteration of the entry loop of `buildWhereClause`: dispatch on the
key name (`and`/`or` reserved) and then on the value shape. -/
def bwcEntry (k : String) (v : WVal) (i : Nat) :
    String × List (String × Value) × Nat :=
  if k = "and" ∨ k = "or" then
    match v with
    | .sub ts =>
      let r := bwcSubs ts i
      (String.intercalate (" " ++ opKeyword k ++ " ")
          (r.1.map (fun cp => "(" ++ cp.1 ++ ")")),
        (r.1.map (·.2)).foldl objAssign [],
        r.2)
    | _ =>
      -- The source would crash here (`value.reduce is not a function`);
      -- the `WhereOptions` type only allows arrays of sub-trees under the
      -- reserved keys, so this shape is unreachable for typed callers.
      ("", [], i)
  else
    match v with
    | .varr vs =>
      let r := bwcArr vs i
      ("`" ++ k ++ "` IN (" ++
          String.intercalate ", " (r.1.map (fun p => "@" ++ p.1)) ++ ")",
        r.1, r.2)
    | .omap ops =>
      -- `Object.keys(value)[0]` — only the first operator key is read.
      let opKey := (ops.head?.map (·.1)).getD ""
      let opVal := (ops.head?.map (·.2)).getD Value.null
      let paramName := "param" ++ toString i
      ("`" ++ k ++ "` " ++ opOrEq opKey ++ " @" ++ paramName,
        [(paramName, opVal)], i + 1)
    | .sub _ =>
      -- An array of objects under a non-reserved key takes the IN branch
      -- in the source with object-valued parameters; `WhereOptions` never
      -- produces this shape, so it is collapsed to an empty IN list here.
      ("`" ++ k ++ "` IN ()", [], i)
    | .scalar val =>
      let paramName := "param" ++ toString i
      ("`" ++ k ++ "` = @" ++ paramName, [(paramName, val)], i + 1)

/-- The `reduce` of the `and`/`or` branch: compile each sub-tree, threading
the parameter index; collect (parenthesizable clause, params) pairs. -/
def bwcSubs : List WTree → Nat →
    List (String × List (String × Value)) × Nat
  | [], i => ([], i)
  | t :: ts, i =>
    let c := buildWhereClause t i
    let r := bwcSubs ts c.2.2
    ((c.1, c.2.1) :: r.1, r.2)

/-- The `value.map` of the IN branch: one generated parameter per array
element, in array order. -/
def bwcArr : List Value → Nat → List (String × Value) × Nat
  | [], i => ([], i)
  | v :: vs, i =>
    let r := bwcArr vs (i + 1)
    (("param" ++ toString i, v) :: r.1, r.2)
end

/-- Attribute descriptor (`src/dataTypes.ts` `DataTypeAttribute`), restricted
to the fields the modelled operations read (`type`, `allowNull`,
`defaultValue`, `primaryKey`; `mode`/`fields`/`precision`/`scale` feed only
the schema builder, which is outside the claims). -/
structure DataType where
  type : String
  allowNull : Option Bool := none
  defaultValue : Option Value := none
  primaryKey : Bool := false
  deriving DecidableEq, Repr

/-- `DataTypes.INTEGER()` of `src/dataTypes.ts`. -/
def DataTypes.INTEGER : DataType := { type := "INT64", allowNull := some true }

/-- Static per-model configuration (`Model.name`, `Model.tableName`,
`Model.primaryKey`, `Model.attributes` of `src/model.ts`). -/
structure ModelRef where
  name : String
  tableName : String
  primaryKey : String
  attributes : List (String × DataType)
  deriving DecidableEq, Repr

/-- `Association.type` of `src/model.ts`. -/
inductive AssocType where
  | hasOne | hasMany | belongsTo | belongsToMany
  deriving DecidableEq, Repr

/-- `Association` of `src/model.ts`. -/
structure Assoc where
  type : AssocType
  target : ModelRef
  foreignKey : String
  otherKey : Option String := none
  as : Option String := none
  through : Option ModelRef := none
  deriving DecidableEq, Repr

/-- A model together with its registered associations
(`Model.associations`, keyed by alias). -/
structure ModelCtx where
  ref : ModelRef
  associations : List (String × Assoc)
  deriving DecidableEq, Repr

/-- `IncludeOptions` of `src/model.ts`. -/
structure Inc where
  model : ModelRef
  as : Option String := none
  whereOpt : Option WTree := none
  required : Bool := false
  attributes : Option (List String) := none

/-- `FindOptions` of `src/model.ts`.  An absent `include` and an empty
`include` array behave identically in every code path (the loops simply
run zero times), so both are modelled as `[]`. -/
structure FindOptions where
  attributes : Option (List String) := none
  whereOpt : Option WTree := none
  includes : List Inc := []
  order : Option (List (String × String)) := none
  group : Option (List String) := none
  limit : Option Int := none
  offset : Option Int := none
  raw : Bool := false
  distinct : Bool := false

/-- Resolved alias of an include: `inc.as || inc.model.tableName`. -/
def Inc.resolvedAs (inc : Inc) : String := inc.as.getD inc.model.tableName

/-- JS truthiness of an optional numeric option (`options.limit ?`,
`options.offset ?`): `undefined` and `0` are falsy. -/
def truthyNum (o : Option Int) : Bool :=
  match o with
  | some n => n != 0
  | none => false

/-- The association lookup of `buildSelectQuery` / `findAndCountAll`:
`Object.values(this.associations).find(a => a.as === as && a.target ===
inc.model)`. -/
def findAssoc (ctx : ModelCtx) (inc : Inc) : Option Assoc :=
  (ctx.associations.map (·.2)).find?
    (fun a => a.as = some inc.resolvedAs ∧ a.target = inc.model)

/-- The alias-only association lookup of `nestAssociations`:
`Object.values(this.associations).find(a => a.as === as)`. -/
def findAssocByAs (ctx : ModelCtx) (asName : String) : Option Assoc :=
  (ctx.associations.map (·.2)).find? (fun a => a.as = some asName)

/-- Worker for `qualifyClause` on the segments produced by splitting the
clause at backticks: the regex `` /`([^`]+)`/g `` matches a backtick, a
non-empty backtick-free run, and a closing backtick, scanning left to
right; an unmatched or immediately re-closed backtick is left in place. -/
def qualifySegs (asName : String) : List String → String
  | [] => ""
  | [s] => s
  | s :: t :: more =>
    if more.isEmpty then
      -- a final unmatched backtick: no further match possible
      s ++ "`" ++ t
    else if t = "" then
      -- two adjacent backticks: the first one cannot start a match
      s ++ "`" ++ qualifySegs asName (t :: more)
    else
      s ++ "`" ++ asName ++ "`." ++ t ++ qualifySegs asName more

/-- Split a character list at every backtick (the segmentation
`clause.split` on `` ` `` performs). -/
def splitTicks : List Char → List (List Char)
  | [] => [[]]
  | c :: rest =>
    if c = '`' then [] :: splitTicks rest
    else
      match splitTicks rest with
      | [] => [[c]]
      | s :: ss => (c :: s) :: ss

/-- The include-filter alias rewrite of `buildSelectQuery` /
`findAndCountAll`: ``clause.replace(/`([^`]+)`/g, `\`${as}\`.$1`)`` —
each backtick-quoted column name is replaced by the backtick-quoted
include alias, a dot, and the bare column name. -/
def qualifyClause (clause : String) (asName : String) : String :=
  qualifySegs asName ((splitTicks clause.data).map (fun cs => String.mk cs))

/-- Join fragment emitted for one include (the body of the `include` loop
of `buildSelectQuery`, shared verbatim by `findAndCountAll`): the SQL join
text appended to the FROM clause, or a configuration error. -/
def includeJoinSql (ctx : ModelCtx) (dataset : String) (inc : Inc)
    (a : Assoc) : Except String String :=
  let mainAlias := ctx.ref.tableName
  let asName := inc.resolvedAs
  let joinType := if inc.required then "INNER JOIN" else "LEFT OUTER JOIN"
  match a.type with
  | .belongsTo =>
    .ok (" " ++ joinType ++ " `" ++ dataset ++ "." ++ inc.model.tableName ++
      "` AS `" ++ asName ++ "` ON `" ++ mainAlias ++ "`.`" ++ a.foreignKey ++
      "` = `" ++ asName ++ "`.`" ++ inc.model.primaryKey ++ "`")
  | .hasOne | .hasMany =>
    .ok (" " ++ joinType ++ " `" ++ dataset ++ "." ++ inc.model.tableName ++
      "` AS `" ++ asName ++ "` ON `" ++ mainAlias ++ "`.`" ++
      ctx.ref.primaryKey ++ "` = `" ++ asName ++ "`.`" ++ a.foreignKey ++ "`")
  | .belongsToMany =>
    match a.through, a.otherKey with
    | some through, some otherKey =>
      let throughAs := asName ++ "_through"
      .ok (" " ++ joinType ++ " `" ++ dataset ++ "." ++ through.tableName ++
        "` AS `" ++ throughAs ++ "` ON `" ++ mainAlias ++ "`.`" ++
        ctx.ref.primaryKey ++ "` = `" ++ throughAs ++ "`.`" ++
        a.foreignKey ++ "`" ++
        " " ++ joinType ++ " `" ++ dataset ++ "." ++ inc.model.tableName ++
        "` AS `" ++ asName ++ "` ON `" ++ throughAs ++ "`.`" ++ otherKey ++
        "` = `" ++ asName ++ "`.`" ++ inc.model.primaryKey ++ "`")
    | _, _ =>
      .error "Through model and otherKey required for belongsToMany"

/-- The `if (options.include)` loop of `buildSelectQuery` (and of
`findAndCountAll`, which repeats it verbatim): accumulates the join SQL,
the alias-qualified include WHERE fragments, and — in compile order — the
parameter list of each compiled include filter.  Fails on the first
include whose association is missing or misconfigured. -/
def processIncludes (ctx : ModelCtx) (dataset : String) :
    List Inc → Except String (String × List String × List (List (String × Value)))
  | [] => .ok ("", [], [])
  | inc :: rest =>
    match findAssoc ctx inc with
    | none => .error ("Association not found for " ++ inc.model.name)
    | some a =>
      match includeJoinSql ctx dataset inc a with
      | .error e => .error e
      | .ok joinSql =>
        let this_ :=
          match inc.whereOpt with
          | some w =>
            let c := buildWhereClause w 0
            ([qualifyClause c.1 inc.resolvedAs], [c.2.1])
          | none => ([], [])
        match processIncludes ctx dataset rest with
        | .error e => .error e
        | .ok r => .ok (joinSql ++ r.1, this_.1 ++ r.2.1, this_.2 ++ r.2.2)

/-- SELECT-list entries for one include
(``` `as`.`field` AS `as_field` ```). -/
def includeSelects (inc : Inc) : List String :=
  let asName := inc.resolvedAs
  (inc.attributes.getD (inc.model.attributes.map (·.1))).map
    (fun f => "`" ++ asName ++ "`.`" ++ f ++ "` AS `" ++ asName ++ "_" ++ f ++ "`")

/-- SELECT-list entries for the main model
(``` `main`.`field` AS `main_field` ```). -/
def mainSelects (ctx : ModelCtx) (o : FindOptions) : List String :=
  let mainAlias := ctx.ref.tableName
  (o.attributes.getD (ctx.ref.attributes.map (·.1))).map
    (fun f => "`" ++ mainAlias ++ "`.`" ++ f ++ "` AS `" ++ mainAlias ++ "_" ++ f ++ "`")

/-- Result of `buildSelectQuery`.  `sql` and `params` are what the source
returns; `whereClause` is its intermediate of the same name, and
`fragParams` records the parameter list of every compiled filter fragment
in compile order (include filters first, then the top-level filter) — the
source merges exactly these, in this order, into `params` with
`Object.assign`. -/
structure SelResult where
  sql : String
  params : List (String × Value)
  whereClause : String
  fragParams : List (List (String × Value))
  deriving DecidableEq, Repr

/-- `buildSelectQuery` of `src/model.ts` (lines 732–855). -/
def buildSelectQuery (ctx : ModelCtx) (dataset : String) (o : FindOptions)
    (selectOverride : Option String := none) : Except String SelResult :=
  let mainAlias := ctx.ref.tableName
  let fromSql := "FROM `" ++ dataset ++ "." ++ ctx.ref.tableName ++
    "` AS `" ++ mainAlias ++ "`"
  match processIncludes ctx dataset o.includes with
  | .error e => .error e
  | .ok pr =>
    let mainFrag :=
      match o.whereOpt with
      | some w => let c := buildWhereClause w 0; ([c.1], [c.2.1])
      | none => ([], [])
    let whereClause :=
      String.intercalate " AND "
        ((mainFrag.1.headD "" :: pr.2.1).filter (fun c => c ≠ ""))
    let fragParams := pr.2.2 ++ mainFrag.2
    let sql1 := fromSql ++ pr.1 ++
      (if whereClause ≠ "" then " WHERE " ++ whereClause else "")
    let selectClause :=
      match selectOverride with
      | some s => [s]
      | none => mainSelects ctx o ++ (o.includes.map includeSelects).flatten
    let sql2 := (if o.distinct then "SELECT DISTINCT " else "SELECT ") ++
      String.intercalate ", " selectClause ++ " " ++ sql1
    let sql3 := sql2 ++
      (match o.group with
       | some gs => " GROUP BY " ++
           String.intercalate ", " (gs.map (fun g => "`" ++ g ++ "`"))
       | none => "") ++
      (match o.order with
       | some os => " ORDER BY " ++
           String.intercalate ", "
             (os.map (fun fd => "`" ++ fd.1 ++ "` " ++ fd.2))
       | none => "")
    let sql4 := sql3 ++
      (if truthyNum o.limit then " LIMIT " ++ toString (o.limit.getD 0) else "") ++
      (if truthyNum o.offset then " OFFSET " ++ toString (o.offset.getD 0) else "")
    .ok { sql := sql4,
          params := fragParams.foldl objAssign [],
          whereClause := whereClause,
          fragParams := fragParams }

/-- The warehouse queries `findAll` submits (`src/model.ts` lines 156–176):
`buildSelectQuery` runs synchronously first, and only on success is the
single compiled statement handed to `this.orm.bigquery.query`. -/
def findAllQueries (ctx : ModelCtx) (dataset : String) (o : FindOptions) :
    List (String × List (String × Value)) :=
  match buildSelectQuery ctx dataset o none with
  | .error _ => []
  | .ok r => [(r.sql, r.params)]

/-- A slot of a reassembled parent object: a copied scalar attribute, a
singular association slot (`null` or one child object), or a collection
association slot (an array of child objects). -/
inductive Slot where
  | val : Value → Slot
  | one : Option (List (String × Value)) → Slot
  | many : List (List (String × Value)) → Slot
  deriving DecidableEq, Repr

/-- A reassembled parent object. -/
abbrev Obj := List (String × Slot)

/-- Child object built inside `nestAssociations`:
`for (const field in inc.model.attributes) child[field] = row[as_field]`. -/
def rowChild (m : ModelRef) (asName : String) (row : Row) :
    List (String × Value) :=
  m.attributes.map (fun fa => (fa.1, getVal row (asName ++ "_" ++ fa.1)))

/-- Parent object creation on first sight of a primary-key value: copy the
main model's prefixed columns, then initialize one slot per include whose
alias resolves to a registered association (`[]` for collection kinds,
`null` for singular kinds). -/
def newParent (ctx : ModelCtx) (includes : List Inc) (row : Row) : Obj :=
  let base : Obj := ctx.ref.attributes.map
    (fun fa => (fa.1, Slot.val (getVal row (ctx.ref.tableName ++ "_" ++ fa.1))))
  includes.foldl
    (fun p inc =>
      match findAssocByAs ctx inc.resolvedAs with
      | some a =>
        if a.type = .hasMany ∨ a.type = .belongsToMany then
          objSet p inc.resolvedAs (Slot.many [])
        else
          objSet p inc.resolvedAs (Slot.one none)
      | none => p)
    base

/-- The per-include body of the row loop of `nestAssociations`: skip when
the alias has no association or the child key is null; append to a
collection slot unless a child with the same primary-key value is already
present; overwrite a singular slot unconditionally. -/
def addChild (ctx : ModelCtx) (row : Row) (p : Obj) (inc : Inc) : Obj :=
  match findAssocByAs ctx inc.resolvedAs with
  | none => p
  | some a =>
    let childPK := getVal row (inc.resolvedAs ++ "_" ++ inc.model.primaryKey)
    if childPK = Value.null then p
    else
      let child := rowChild inc.model inc.resolvedAs row
      if a.type = .hasMany ∨ a.type = .belongsToMany then
        match lookupKey p inc.resolvedAs with
        | some (.many cs) =>
          if cs.any (fun c => getVal c inc.model.primaryKey = childPK) then p
          else objSet p inc.resolvedAs (Slot.many (cs ++ [child]))
        | _ =>
          -- the source would crash (`parent[as].some is not a function`);
          -- creation always initializes this slot to an array first
          p
      else
        objSet p inc.resolvedAs (Slot.one (some child))

/-- Replace the object stored under a parent key in the reassembly map. -/
def setPM (pm : List (Value × Obj)) (k : Value) (o : Obj) :
    List (Value × Obj) :=
  pm.map (fun e => if e.1 = k then (k, o) else e)

/-- Lookup in the reassembly map (JS `Map.get`, insertion-ordered). -/
def lookupPM (pm : List (Value × Obj)) (k : Value) : Option Obj :=
  (pm.find? (fun e => e.1 = k)).map (·.2)

/-- One row of the main loop of `nestAssociations`: skip null parent keys;
create-and-fill on first sight, otherwise fill the existing parent. -/
def nestStep (ctx : ModelCtx) (includes : List Inc)
    (pm : List (Value × Obj)) (row : Row) : List (Value × Obj) :=
  let pk := getVal row (ctx.ref.tableName ++ "_" ++ ctx.ref.primaryKey)
  if pk = Value.null then pm
  else
    match lookupPM pm pk with
    | some p => setPM pm pk (includes.foldl (addChild ctx row) p)
    | none =>
      pm ++ [(pk, includes.foldl (addChild ctx row) (newParent ctx includes row))]

/-- The insertion-ordered `parentMap` after the row loop of
`nestAssociations`. -/
def nestFold (ctx : ModelCtx) (includes : List Inc) (rows : List Row) :
    List (Value × Obj) :=
  rows.foldl (nestStep ctx includes) []

/-- The no-include branch of `nestAssociations`: strip the table-name
prefix from every matching column of every row, one flat object per row. -/
def flatRow (ctx : ModelCtx) (row : Row) : Obj :=
  (row.filter
      (fun kv => (ctx.ref.tableName ++ "_").data.isPrefixOf kv.1.data)).map
    (fun kv =>
      (String.mk (kv.1.data.drop (ctx.ref.tableName ++ "_").data.length),
        Slot.val kv.2))

/-- `nestAssociations` of `src/model.ts` (lines 857–934). -/
def nestAssociations (ctx : ModelCtx) (rows : List Row)
    (includes : List Inc) : List Obj :=
  if includes.isEmpty then rows.map (flatRow ctx)
  else (nestFold ctx includes rows).map (·.2)

/-- Result of the query-building part of `findAndCountAll`: the flattened
data query body (`sql` in the source, FROM + joins + WHERE), the count
query, the composed CTE statement actually executed, the shared WHERE
clause, and the merged parameters. -/
structure FacResult where
  dataFromSql : String
  countSql : String
  finalSql : String
  whereClause : String
  params : List (String × Value)
  fragParams : List (List (String × Value))
  deriving DecidableEq, Repr

/-- The CTE template of `findAndCountAll` (`src/model.ts` lines 315–339):
one statement holding the count query, the data query, and a final SELECT
attaching the count as a scalar column to every data row.  The whitespace
reproduces the template literal of the source. -/
def cteCompose (countSql dataSelect dataFrom groupStr orderStr
    limitStr offsetStr : String) : String :=
  "\n    WITH count_query AS (" ++ countSql ++
    "),\n         data_query AS (\n           SELECT " ++ dataSelect ++
    "\n           " ++ dataFrom ++
    "\n           " ++ groupStr ++
    "\n           " ++ orderStr ++
    "\n           " ++ limitStr ++
    "\n           " ++ offsetStr ++
    "\n         )\n    SELECT data_query.*, " ++
    "(SELECT total_count FROM count_query) AS total_count\n    FROM data_query\n  "

/-- The synchronous query-construction part of `findAndCountAll` of
`src/model.ts` (lines 214–339), up to the `bigquery.query` call: the same
FROM/JOIN/WHERE construction as `buildSelectQuery`, a count query built
over the bare base table plus the shared WHERE clause, and the composing
CTE.  The whitespace of `finalSql` reproduces the template literal of the
source. -/
def buildFindAndCountQuery (ctx : ModelCtx) (dataset : String)
    (o : FindOptions) : Except String FacResult :=
  let mainAlias := ctx.ref.tableName
  let fromSql := "FROM `" ++ dataset ++ "." ++ ctx.ref.tableName ++
    "` AS `" ++ mainAlias ++ "`"
  let selectClause := mainSelects ctx o ++ (o.includes.map includeSelects).flatten
  match processIncludes ctx dataset o.includes with
  | .error e => .error e
  | .ok pr =>
    let mainFrag :=
      match o.whereOpt with
      | some w => let c := buildWhereClause w 0; ([c.1], [c.2.1])
      | none => ([], [])
    let whereClause :=
      String.intercalate " AND "
        ((mainFrag.1.headD "" :: pr.2.1).filter (fun c => c ≠ ""))
    let fragParams := pr.2.2 ++ mainFrag.2
    let sql1 := fromSql ++ pr.1 ++
      (if whereClause ≠ "" then " WHERE " ++ whereClause else "")
    let countSelect :=
      if o.distinct then
        "COUNT(DISTINCT `" ++ mainAlias ++ "`.`" ++ ctx.ref.primaryKey ++ "`)"
      else "COUNT(*)"
    let countSql := "SELECT " ++ countSelect ++ " AS total_count FROM `" ++
      dataset ++ "." ++ ctx.ref.tableName ++ "` AS `" ++ mainAlias ++ "`" ++
      (if whereClause ≠ "" then " WHERE " ++ whereClause else "")
    let finalSql := cteCompose countSql
      ((if o.distinct then "DISTINCT" else "") ++ " " ++
        String.intercalate ", " selectClause)
      sql1
      (match o.group with
       | some gs => "GROUP BY " ++
           String.intercalate ", " (gs.map (fun g => "`" ++ g ++ "`"))
       | none => "")
      (match o.order with
       | some os => "ORDER BY " ++
           String.intercalate ", "
             (os.map (fun fd => "`" ++ fd.1 ++ "` " ++ fd.2))
       | none => "")
      (if truthyNum o.limit then "LIMIT " ++ toString (o.limit.getD 0) else "")
      (if truthyNum o.offset then "OFFSET " ++ toString (o.offset.getD 0) else "")
    .ok { dataFromSql := sql1,
          countSql := countSql,
          finalSql := finalSql,
          whereClause := whereClause,
          params := fragParams.foldl objAssign [],
          fragParams := fragParams }

/-- Environment of a `create` call: the read-only-mode flag of the ORM
config and the effects the default-value sentinels resolve to (`new
Date()` and `crypto.randomUUID()` captured at call time). -/
structure CreateEnv where
  freeTierMode : Bool
  now : Value
  uuid : Value

/-- `resolveDefault` of `src/model.ts`: `DataTypes.NOW` *is* the string
`"CURRENT_TIMESTAMP()"` and `DataTypes.UUIDV4` *is* `"GENERATE_UUID()"`,
so both `===` comparisons of the source collapse to string equality. -/
def resolveDefault (env : CreateEnv) (v : Value) : Value :=
  if v = Value.str "CURRENT_TIMESTAMP()" then env.now
  else if v = Value.str "GENERATE_UUID()" then env.uuid
  else v

/-- The attribute loop of `create`: supplied value first (`field in data`),
then the resolved default (`defaultValue !== undefined`), and otherwise a
thrown validation error when `allowNull === false`; attributes with none
of the three are simply skipped. -/
def fillFields (env : CreateEnv) (data : List (String × Value)) :
    List (String × DataType) → Except String (List (String × Value))
  | [] => .ok []
  | (f, a) :: rest =>
    match lookupKey data f with
    | some v => (fillFields env data rest).map (fun r => (f, v) :: r)
    | none =>
      match a.defaultValue with
      | some d => (fillFields env data rest).map
          (fun r => (f, resolveDefault env d) :: r)
      | none =>
        if a.allowNull = some false then
          .error ("Missing required field " ++ f)
        else fillFields env data rest

/-- The synchronous part of `create` of `src/model.ts` (lines 473–508):
the free-tier gate, then validation and default filling; only a
successful result reaches `table.insert`. -/
def createModel (env : CreateEnv) (attrs : List (String × DataType))
    (data : List (String × Value)) : Except String (List (String × Value)) :=
  if env.freeTierMode then
    .error "Free tier mode: CREATE (INSERT) not allowed."
  else fillFields env data attrs

/-- The warehouse gateway calls `create` performs: `table.insert` is
reached only when validation succeeded, so a thrown error means zero
invocations and an unchanged warehouse. -/
def createGatewayCalls (env : CreateEnv) (attrs : List (String × DataType))
    (data : List (String × Value)) : List (List (String × Value)) :=
  match createModel env attrs data with
  | .error _ => []
  | .ok filled => [filled]

/-- The per-model registration state `belongsTo` reads and writes. -/
structure RegState where
  attributes : List (String × DataType)
  associations : List (String × Assoc)
  deriving DecidableEq, Repr

/-- `belongsTo` of `src/model.ts` (lines 92–105): register the association
under the alias, then backfill an INTEGER foreign-key attribute only when
no attribute of that name exists (`if (!this.attributes[foreignKey])`;
a present descriptor object is always truthy). -/
def belongsTo (s : RegState) (target : ModelRef)
    (foreignKeyOpt asOpt : Option String) : RegState :=
  let foreignKey := foreignKeyOpt.getD (lowerStr target.name ++ "Id")
  let asName := asOpt.getD (lowerStr target.name)
  let assoc : Assoc :=
    { type := .belongsTo, target := target, foreignKey := foreignKey,
      as := some asName }
  { attributes :=
      if (lookupKey s.attributes foreignKey).isSome then s.attributes
      else s.attributes ++ [(foreignKey, DataTypes.INTEGER)],
    associations := objSet s.associations asName assoc }

/-- Standard warehouse semantics of the single-`hasMany`-include statement
`buildSelectQuery` emits (`SELECT ... FROM parent LEFT OUTER JOIN child ON
parent.pk = child.fk ...`): one flattened output row per matching
parent/child pair, carrying the `alias_field` columns of the SELECT list;
a parent with no matching child yields one row with null child columns. -/
def flattenHasMany (parent child : ModelRef) (asName fk : String)
    (prows crows : List Row) : List Row :=
  prows.flatMap (fun p =>
    let pcols : Row := parent.attributes.map
      (fun fa => (parent.tableName ++ "_" ++ fa.1, getVal p fa.1))
    let ms := crows.filter
      (fun c => getVal c fk = getVal p parent.primaryKey)
    if ms.isEmpty then
      [pcols ++ child.attributes.map
        (fun fa => (asName ++ "_" ++ fa.1, Value.null))]
    else
      ms.map (fun c =>
        pcols ++ child.attributes.map
          (fun fa => (asName ++ "_" ++ fa.1, getVal c fa.1))))

/-- Standard semantics of a trailing `LIMIT n` on a SELECT: keep the first
`n` output rows of the statement it is attached to. -/
def applyLimit (n : Int) (rows : List Row) : List Row :=
  rows.take n.toNat

/-- Spec-side description of the include validation `buildSelectQuery`
performs (same scan order as the source's include loop): the first include
with no registered association for its alias-and-target pair fails with an
error naming the target entity, and the first `belongsToMany` association
missing its junction model or `otherKey` fails with the configuration
error. -/
def includeCheck (ctx : ModelCtx) : List Inc → Except String Unit
  | [] => .ok ()
  | inc :: rest =>
    match findAssoc ctx inc with
    | none => .error ("Association not found for " ++ inc.model.name)
    | some a =>
      if a.type = .belongsToMany ∧ (a.through = none ∨ a.otherKey = none) then
        .error "Through model and otherKey required for belongsToMany"
      else includeCheck ctx rest

/-- Spec-side first-seen order of non-null parent keys in a row set. -/
def firstSeenKeys (ctx : ModelCtx) (rows : List Row) : List Value :=
  rows.foldl
    (fun ks row =>
      let pk := getVal row (ctx.ref.tableName ++ "_" ++ ctx.ref.primaryKey)
      if pk = Value.null ∨ pk ∈ ks then ks else ks ++ [pk])
    []

/-- Spec-side scan of the `and`/`or` combinator branch: compile each
sub-tree with `buildWhereClause`, threading the parameter index from one
element to the next, and parenthesize each resulting fragment; also
returns the final parameter index. -/
def subClausesSpec : List WTree → Nat → List String × Nat
  | [], i => ([], i)
  | t :: ts, i =>
    let c := buildWhereClause t i
    let r := subClausesSpec ts c.2.2
    (("(" ++ c.1 ++ ")") :: r.1, r.2)

/-- Spec-side merged parameters of the `and`/`or` combinator branch: the
parameter maps of the compiled sub-trees, merged left to right. -/
def subParamsSpec : List WTree → Nat → List (String × Value) :=
  fun ts i => ((bwcSubs ts i).1.map (·.2)).foldl objAssign []

/-- Deduplication invariant of a reassembled object: every collection slot
reachable under some include's alias holds children with pairwise distinct
values at that include's primary-key field. -/
def GoodObj (includes : List Inc) (o : Obj) : Prop :=
  ∀ inc ∈ includes, ∀ cs, lookupKey o inc.resolvedAs = some (Slot.many cs) →
    (cs.map (fun c => getVal c inc.model.primaryKey)).Nodup

/-- Freshly created parents only carry empty collection slots. -/
def InitObj (o : Obj) : Prop :=
  ∀ k cs, lookupKey o k = some (Slot.many cs) → cs = []

/-- Whether one character list occurs inside another. -/
def containsSub : List Char → List Char → Bool
  | [], sub => sub.isEmpty
  | l@(_ :: rest), sub => sub.isPrefixOf l || containsSub rest sub

/-- Whether an SQL string contains the token `JOIN`. -/
def hasJoin (s : String) : Bool := containsSub s.data "JOIN".data

/-- Number of children in the `orders` collection slot of each
reassembled object (used to compare against the expected child count). -/
def childCounts (os : List Obj) : List Nat :=
  os.map (fun o =>
    match lookupKey o "orders" with
    | some (Slot.many cs) => cs.length
    | _ => 0)

/-- Concrete fixture: the `Order` entity of the spec's end-to-end scenario
(`Order{id PK, userId FK, amount}`). -/
def orderRef : ModelRef where
  name := "Order"
  tableName := "order"
  primaryKey := "id"
  attributes :=
    [("id", { type := "INT64" }), ("userId", { type := "INT64" }),
     ("amount", { type := "INT64" })]

/-- Concrete fixture: the `User` entity (`User{id PK, name}`). -/
def userRef : ModelRef where
  name := "User"
  tableName := "user"
  primaryKey := "id"
  attributes := [("id", { type := "INT64" }), ("name", { type := "STRING" })]

/-- Concrete fixture: `User.hasMany(Order, { as: "orders", foreignKey:
"userId" })`. -/
def userCtx : ModelCtx where
  ref := userRef
  associations :=
    [("orders",
      { type := .hasMany, target := orderRef, foreignKey := "userId",
        as := some "orders" })]

/-- Concrete fixture: `{ model: Order, as: "orders" }` include. -/
def ordersInc : Inc := { model := orderRef, as := some "orders" }

/-- Concrete fixture: find options with a top-level filter `{a: 1}` and an
include filter `{b: 2}` — two filter fragments in one statement. -/
def c2opts : FindOptions :=
  { whereOpt := some (.mk [("a", .scalar (.int 1))]),
    includes :=
      [{ model := orderRef, as := some "orders",
         whereOpt := some (.mk [("b", .scalar (.int 2))]) }] }

/-- Concrete fixture: find options with an include and a top-level filter,
for the `findAndCountAll` comparison. -/
def c3opts : FindOptions :=
  { whereOpt := some (.mk [("a", .scalar (.int 1))]),
    includes := [ordersInc] }

/-- Concrete fixture: one `User` row. -/
def userRows : List Row := [[("id", .int 1), ("name", .str "A")]]

/-- Concrete fixture: five `Order` rows all belonging to user 1. -/
def orderRows : List Row :=
  (List.range 5).map (fun i =>
    [("id", .int (i + 1)), ("userId", .int 1), ("amount", .int (100 * (i + 1)))])

/-- The flattened warehouse result of the user/orders join. -/
def joinedRows : List Row :=
  flattenHasMany userRef orderRef "orders" "userId" userRows orderRows

/-- Concrete fixture: the same flattened parent/child row repeated three
times, simulating a fan-out from a second include. -/
def dupRows : List Row := [joinedRows.headD [], joinedRows.headD [], joinedRows.headD []]

/-- The SELECT-and-join body `buildSelectQuery` emits for the user/orders
find before pagination is appended. -/
def c1sqlBody : String :=
  "SELECT `user`.`id` AS `user_id`, `user`.`name` AS `user_name`, " ++
  "`orders`.`id` AS `orders_id`, `orders`.`userId` AS `orders_userId`, " ++
  "`orders`.`amount` AS `orders_amount` FROM `ds.user` AS `user` " ++
  "LEFT OUTER JOIN `ds.order` AS `orders` ON `user`.`id` = `orders`.`userId`"

/-- The concrete find-and-count compilation result for `c3opts`. -/
def c3res : FacResult :=
  ((buildFindAndCountQuery userCtx "ds" c3opts).toOption).getD
    { dataFromSql := "", countSql := "", finalSql := "", whereClause := "",
      params := [], fragParams := [] }

/-- Concrete fixture: a two-operator operator map `{age: {gt: 1, lt: 5}}`. -/
def wOm : WTree := .mk [("age", .omap [("gt", .int 1), ("lt", .int 5)])]

/-- The generated parameter names of all compiled filter fragments of one
compiled find statement, in compile order. -/
def fragParamNames (r : Except String SelResult) : List String :=
  match r with
  | .ok x => x.fragParams.flatten.map Prod.fst
  | .error _ => []

/-- Concrete fixture: the `User` model with an empty association map. -/
def userCtxNoAssoc : ModelCtx := { ref := userRef, associations := [] }

/-- Concrete fixture: a create environment outside free-tier mode. -/
def envNoFt : CreateEnv := { freeTierMode := false, now := .null, uuid := .null }

/-- Concrete fixture: one required, default-less attribute. -/
def reqAttrs : List (String × DataType) :=
  [("email", { type := "STRING", allowNull := some false })]

theorem objSet_cons_ne {α : Type} (p : String × α) (rest : List (String × α))
    (k : String) (v : α) (hp : p.1 ≠ k) :
    objSet (p :: rest) k v = p :: objSet rest k v := by
  simp only [objSet, List.any_cons]
  by_cases h : rest.any (fun q => q.1 = k) <;> simp [h, hp]

theorem objSet_cons_eq {α : Type} (p : String × α) (rest : List (String × α))
    (k : String) (v : α) (hp : p.1 = k) :
    objSet (p :: rest) k v =
      (k, v) :: rest.map (fun q => if q.1 = k then (k, v) else q) := by
  simp [objSet, List.any_cons, hp]

theorem lookupKey_cons {α : Type} (p : String × α) (rest : List (String × α))
    (k : String) :
    lookupKey (p :: rest) k = if p.1 = k then some p.2 else lookupKey rest k := by
  by_cases h : p.1 = k <;> simp [lookupKey, List.find?_cons, h]

theorem lookupKey_objSet_self {α : Type} (o : List (String × α)) (k : String)
    (v : α) : lookupKey (objSet o k v) k = some v := by
  induction o with
  | nil => simp [objSet, lookupKey]
  | cons p rest ih =>
    by_cases hp : p.1 = k
    · rw [objSet_cons_eq p rest k v hp]
      simp [lookupKey_cons]
    · rw [objSet_cons_ne p rest k v hp]
      rw [lookupKey_cons, if_neg hp]
      exact ih

theorem lookupKey_objSet_other {α : Type} (o : List (String × α))
    (k k' : String) (v : α) (h : k' ≠ k) :
    lookupKey (objSet o k v) k' = lookupKey o k' := by
  induction o with
  | nil => simp [objSet, lookupKey, Ne.symm h]
  | cons p rest ih =>
    by_cases hp : p.1 = k
    · rw [objSet_cons_eq p rest k v hp]
      rw [lookupKey_cons, lookupKey_cons, if_neg (by simpa [hp] using Ne.symm h),
        if_neg (by rw [hp]; exact Ne.symm h)]
      clear ih
      induction rest with
      | nil => simp [lookupKey]
      | cons q qs ihq =>
        by_cases hq : q.1 = k
        · simp only [List.map_cons, if_pos hq]
          rw [lookupKey_cons, lookupKey_cons, if_neg (by simpa using Ne.symm h),
            if_neg (by rw [hq]; exact Ne.symm h)]
          exact ihq
        · simp only [List.map_cons, if_neg hq]
          rw [lookupKey_cons, lookupKey_cons]
          by_cases hq' : q.1 = k'
          · simp [hq']
          · rw [if_neg hq', if_neg hq']
            exact ihq
    · rw [objSet_cons_ne p rest k v hp]
      rw [lookupKey_cons, lookupKey_cons]
      by_cases hp' : p.1 = k'
      · simp [hp']
      · rw [if_neg hp', if_neg hp']
        exact ih

/-- C10.  A find request with `limit: 0` compiles to exactly the same SQL
and parameters as one with no limit at all, and likewise `offset: 0`
compiles like an absent offset: the source guards both clauses with JS
truthiness (`options.limit ?`, `options.offset ?`), and the number 0 is
falsy, so a caller passing `limit: 0` gets the unlimited query. -/
theorem limitZero_compiles_as_absent (ctx : ModelCtx) (ds : String)
    (o : FindOptions) (so : Option String) :
    buildSelectQuery ctx ds { o with limit := some 0 } so =
      buildSelectQuery ctx ds { o with limit := none } so ∧
    buildSelectQuery ctx ds { o with offset := some 0 } so =
      buildSelectQuery ctx ds { o with offset := none } so := by
  constructor <;> simp [buildSelectQuery, truthyNum, mainSelects]

/-- C8 counterexample.  The operator map `{age: {gt: 1, lt: 5}}` has two
operator keys, but the compiled fragment contains only the `>` condition
and a single generated parameter: the second operator key `lt` is ignored
(the source reads only `Object.keys(value)[0]`), refuting "one translated
condition per operator key". -/
theorem omap_second_operator_dropped :
    buildWhereClause wOm 0 = ("`age` > @param0", [("param0", Value.int 1)], 1) ∧
    (buildWhereClause wOm 0).2.1.length = 1 := by
  exact ⟨rfl, rfl⟩

/-- C8 as amended.  For an operator map under a non-reserved key, only the
first operator key of the map is translated (via the operator table, with
`=` as fallback) into a single condition with a single generated
parameter; every remaining operator key of the map is ignored. -/
theorem omap_first_operator_only (k : String) (o : String × Value)
    (rest : List (String × Value)) (i : Nat)
    (h1 : k ≠ "and") (h2 : k ≠ "or") :
    bwcEntry k (.omap (o :: rest)) i = bwcEntry k (.omap [o]) i ∧
    bwcEntry k (.omap (o :: rest)) i =
      ("`" ++ k ++ "` " ++ opOrEq o.1 ++ " @" ++ ("param" ++ toString i),
        [("param" ++ toString i, o.2)], i + 1) := by
  constructor <;> simp [bwcEntry, h1, h2]

/-- C8 amended witness at `{age: {gt: 1, lt: 5}}`. -/
theorem omap_first_operator_only_witness :
    bwcEntry "age" (.omap [("gt", Value.int 1), ("lt", Value.int 5)]) 0 =
      bwcEntry "age" (.omap [("gt", Value.int 1)]) 0 :=
  (omap_first_operator_only "age" ("gt", Value.int 1) [("lt", Value.int 5)] 0
    (by decide) (by decide)).1

instance {ε α : Type} [DecidableEq ε] [DecidableEq α] :
    DecidableEq (Except ε α) := fun a b =>
  match a, b with
  | .ok x, .ok y =>
    if h : x = y then isTrue (by rw [h])
    else isFalse (fun hh => by cases hh; exact h rfl)
  | .error x, .error y =>
    if h : x = y then isTrue (by rw [h])
    else isFalse (fun hh => by cases hh; exact h rfl)
  | .ok _, .error _ => isFalse (fun hh => by cases hh)
  | .error _, .ok _ => isFalse (fun hh => by cases hh)

set_option maxRecDepth 8192 in
/-- C2 (code bug).  One compiled find statement with a top-level filter
`{a: 1}` and an include filter `{b: 2}` generates the parameter name
`param0` in *both* fragments: `buildSelectQuery` calls `buildWhereClause`
with a fresh index 0 per fragment and discards the returned `nextIndex`,
so the names collide, the `Object.assign` merge keeps only one binding
(`param0 = 1`, the include's value 2 is lost), and both `@param0`
occurrences of the WHERE clause are bound to the same value. -/
theorem find_statement_params_collide :
    buildSelectQuery userCtx "ds" c2opts none =
      .ok ⟨"SELECT `user`.`id` AS `user_id`, `user`.`name` AS `user_name`, " ++
        "`orders`.`id` AS `orders_id`, `orders`.`userId` AS `orders_userId`, " ++
        "`orders`.`amount` AS `orders_amount` FROM `ds.user` AS `user` " ++
        "LEFT OUTER JOIN `ds.order` AS `orders` ON `user`.`id` = `orders`.`userId` " ++
        "WHERE `a` = @param0 AND `orders`.b = @param0",
        [("param0", Value.int 1)],
        "`a` = @param0 AND `orders`.b = @param0",
        [[("param0", Value.int 2)], [("param0", Value.int 1)]]⟩ ∧
    ¬ (fragParamNames (buildSelectQuery userCtx "ds" c2opts none)).Nodup := by
  exact ⟨by decide, by decide⟩

set_option maxRecDepth 8192 in
/-- C1 (code bug).  For `User hasMany Order` with one user owning five
orders, a find with `limit: 1` compiles to the flattened join SELECT with
`LIMIT 1` appended at top level (no parent-key subquery), so under
standard SQL semantics the warehouse returns a single flattened row and
reassembly yields one parent carrying a *one*-element orders collection —
not the five-element collection the claim requires; without the limit the
same pipeline attaches all five children. -/
theorem limit_truncates_child_collection :
    buildSelectQuery userCtx "ds" { includes := [ordersInc], limit := some 1 } none =
      .ok ⟨c1sqlBody ++ " LIMIT 1", [], "", []⟩ ∧
    childCounts (nestAssociations userCtx (applyLimit 1 joinedRows) [ordersInc]) = [1] ∧
    childCounts (nestAssociations userCtx joinedRows [ordersInc]) = [5] := by
  exact ⟨by decide, by decide, by decide⟩

/-- C3 counterexample.  For a find-and-count request with a hasMany
include and a top-level filter, the data query contains the `LEFT OUTER
JOIN` but the count query is built over the bare base table: it shares
the WHERE clause, yet contains no JOIN at all — refuting "the count query
is built over the same FROM, JOIN, and WHERE clauses as the data
query". -/
theorem count_query_has_no_joins :
    (buildFindAndCountQuery userCtx "ds" c3opts).map (fun r => hasJoin r.dataFromSql) =
      .ok true ∧
    (buildFindAndCountQuery userCtx "ds" c3opts).map (fun r => r.countSql) =
      .ok "SELECT COUNT(*) AS total_count FROM `ds.user` AS `user` WHERE `a` = @param0" ∧
    (buildFindAndCountQuery userCtx "ds" c3opts).map (fun r => hasJoin r.countSql) =
      .ok false := by
  exact ⟨by decide, by decide, by decide⟩

theorem fillFields_missing_required (env : CreateEnv)
    (data : List (String × Value)) :
    ∀ (attrs : List (String × DataType)) (f : String) (dt : DataType),
      (f, dt) ∈ attrs → lookupKey data f = none → dt.defaultValue = none →
      dt.allowNull = some false →
      ∃ g, fillFields env data attrs = .error ("Missing required field " ++ g) := by
  intro attrs
  induction attrs with
  | nil => intro f dt hmem; cases hmem
  | cons hd rest ih =>
    intro f dt hmem hnd hdv han
    obtain ⟨f', a'⟩ := hd
    rcases List.mem_cons.mp hmem with heq | htail
    · cases heq
      simp only [fillFields, hnd, hdv, han, if_pos rfl]
      exact ⟨f, rfl⟩
    · obtain ⟨g, hg⟩ := ih f dt htail hnd hdv han
      simp only [fillFields]
      cases hl : lookupKey data f' with
      | some v => exact ⟨g, by simp [hl, hg, Except.map]⟩
      | none =>
        cases hdv' : a'.defaultValue with
        | some d => exact ⟨g, by simp [hl, hdv', hg, Except.map]⟩
        | none =>
          by_cases han' : a'.allowNull = some false
          · exact ⟨f', by simp [hl, hdv', han']⟩
          · exact ⟨g, by simp [hl, hdv', han', hg]⟩

/-- C7.  A `create` call (outside free-tier mode) whose input omits a
value for an attribute declared `allowNull: false` with no `defaultValue`
fails synchronously with the `Missing required field` validation error,
before `table.insert` is ever reached: the gateway observes zero
invocations and the warehouse is unchanged. -/
theorem create_missing_required_validates_first (env : CreateEnv)
    (attrs : List (String × DataType)) (data : List (String × Value))
    (f : String) (dt : DataType) (hft : env.freeTierMode = false)
    (hmem : (f, dt) ∈ attrs) (hnd : lookupKey data f = none)
    (hdv : dt.defaultValue = none) (han : dt.allowNull = some false) :
    (∃ g, createModel env attrs data =
      .error ("Missing required field " ++ g)) ∧
    createGatewayCalls env attrs data = [] := by
  obtain ⟨g, hg⟩ := fillFields_missing_required env data attrs f dt hmem hnd hdv han
  have hc : createModel env attrs data =
      .error ("Missing required field " ++ g) := by
    simp [createModel, hft, hg]
  exact ⟨⟨g, hc⟩, by simp [createGatewayCalls, hc]⟩

/-- C7 witness: creating with an empty input against a model with a
required, default-less `email` attribute performs zero gateway calls. -/
theorem create_missing_required_validates_first_witness :
    createGatewayCalls envNoFt reqAttrs [] = [] :=
  (create_missing_required_validates_first envNoFt reqAttrs [] "email"
    { type := "STRING", allowNull := some false }
    rfl (by decide) rfl rfl rfl).2

theorem lookupKey_append_none {α : Type} (l1 l2 : List (String × α))
    (k : String) (h : lookupKey l1 k = none) :
    lookupKey (l1 ++ l2) k = lookupKey l2 k := by
  induction l1 with
  | nil => simp
  | cons p rest ih =>
    rw [lookupKey_cons] at h
    by_cases hp : p.1 = k
    · simp [hp] at h
    · rw [List.cons_append, lookupKey_cons, if_neg hp]
      exact ih (by rwa [if_neg hp] at h)

theorem lookupKey_append_single_ne {α : Type} (l : List (String × α))
    (k f : String) (v : α) (h : f ≠ k) :
    lookupKey (l ++ [(k, v)]) f = lookupKey l f := by
  induction l with
  | nil => simp [lookupKey, Ne.symm h]
  | cons p rest ih =>
    rw [List.cons_append, lookupKey_cons, lookupKey_cons]
    by_cases hp : p.1 = f
    · simp [hp]
    · rw [if_neg hp, if_neg hp]; exact ih

/-- C9.  Registering a belongsTo association backfills an INTEGER
foreign-key attribute only when no attribute of that name exists, leaves
the attribute map untouched when one does, never changes any other
attribute, and — apart from the attribute backfill — only writes the new
association entry under the alias, leaving every other alias unchanged. -/
theorem belongsTo_registration_effects (s : RegState) (target : ModelRef)
    (fkOpt asOpt : Option String) :
    ((lookupKey s.attributes (fkOpt.getD (lowerStr target.name ++ "Id"))).isSome →
      (belongsTo s target fkOpt asOpt).attributes = s.attributes) ∧
    (lookupKey s.attributes (fkOpt.getD (lowerStr target.name ++ "Id")) = none →
      (belongsTo s target fkOpt asOpt).attributes =
        s.attributes ++
          [(fkOpt.getD (lowerStr target.name ++ "Id"), DataTypes.INTEGER)] ∧
      lookupKey (belongsTo s target fkOpt asOpt).attributes
          (fkOpt.getD (lowerStr target.name ++ "Id")) = some DataTypes.INTEGER) ∧
    (∀ f, f ≠ fkOpt.getD (lowerStr target.name ++ "Id") →
      lookupKey (belongsTo s target fkOpt asOpt).attributes f =
        lookupKey s.attributes f) ∧
    lookupKey (belongsTo s target fkOpt asOpt).associations
        (asOpt.getD (lowerStr target.name)) =
      some { type := .belongsTo, target := target,
             foreignKey := fkOpt.getD (lowerStr target.name ++ "Id"),
             as := some (asOpt.getD (lowerStr target.name)) } ∧
    (∀ al, al ≠ asOpt.getD (lowerStr target.name) →
      lookupKey (belongsTo s target fkOpt asOpt).associations al =
        lookupKey s.associations al) := by
  refine ⟨?_, ?_, ?_, ?_, ?_⟩
  · intro h
    simp only [belongsTo]
    rw [if_pos h]
  · intro h
    constructor
    · simp only [belongsTo]
      rw [if_neg (by simp [h])]
    · simp only [belongsTo]
      rw [if_neg (by simp [h])]
      rw [lookupKey_append_none _ _ _ h, lookupKey_cons]
      simp
  · intro f hf
    simp only [belongsTo]
    by_cases h : (lookupKey s.attributes (fkOpt.getD (lowerStr target.name ++ "Id"))).isSome
    · rw [if_pos h]
    · rw [if_neg h]
      exact lookupKey_append_single_ne _ _ _ _ hf
  · simp only [belongsTo]
    exact lookupKey_objSet_self _ _ _
  · intro al hal
    simp only [belongsTo]
    exact lookupKey_objSet_other _ _ _ _ hal

/-- C9 witness: registering `belongsTo(User)` on a fresh model creates the
`userId` INTEGER attribute and the `user` association entry. -/
theorem belongsTo_registration_effects_witness :
    lookupKey (belongsTo { attributes := [], associations := [] } userRef
        none none).associations "user" =
      some { type := .belongsTo, target := userRef, foreignKey := "userId",
             as := some "user" } :=
  (belongsTo_registration_effects
    { attributes := [], associations := [] } userRef none none).2.2.2.1

theorem includeCheck_error_processIncludes (ctx : ModelCtx) (ds : String) :
    ∀ (incs : List Inc) (e : String), includeCheck ctx incs = .error e →
      processIncludes ctx ds incs = .error e := by
  intro incs
  induction incs with
  | nil => intro e h; simp [includeCheck] at h
  | cons inc rest ih =>
    intro e h
    simp only [includeCheck] at h
    simp only [processIncludes]
    cases hfa : findAssoc ctx inc with
    | none => simp only [hfa] at h ⊢; simpa using h
    | some a =>
      simp only [hfa] at h ⊢
      by_cases hcond : a.type = .belongsToMany ∧ (a.through = none ∨ a.otherKey = none)
      · rw [if_pos hcond] at h
        have he : e = "Through model and otherKey required for belongsToMany" := by
          cases h; rfl
        subst he
        have hj : includeJoinSql ctx ds inc a =
            .error "Through model and otherKey required for belongsToMany" := by
          obtain ⟨ht, hto⟩ := hcond
          simp only [includeJoinSql, ht]
          rcases hto with h1 | h1
          · rw [h1]
          · rw [h1]
            cases a.through <;> rfl
        rw [hj]
      · rw [if_neg hcond] at h
        have hok : ∃ j, includeJoinSql ctx ds inc a = .ok j := by
          cases hj : includeJoinSql ctx ds inc a with
          | ok j => exact ⟨j, rfl⟩
          | error msg =>
            exfalso
            cases hty : a.type with
            | belongsTo => simp [includeJoinSql, hty] at hj
            | hasOne => simp [includeJoinSql, hty] at hj
            | hasMany => simp [includeJoinSql, hty] at hj
            | belongsToMany =>
              have hne : ¬(a.through = none ∨ a.otherKey = none) := fun hh =>
                hcond ⟨hty, hh⟩
              push_neg at hne
              obtain ⟨h1, h2⟩ := hne
              cases ht : a.through with
              | none => exact absurd ht h1
              | some th =>
                cases hk : a.otherKey with
                | none => exact absurd hk h2
                | some ok' => simp [includeJoinSql, hty, ht, hk] at hj
        obtain ⟨j, hj⟩ := hok
        rw [hj]
        rw [ih e h]

theorem includeCheck_error_shape (ctx : ModelCtx) :
    ∀ (incs : List Inc) (e : String), includeCheck ctx incs = .error e →
      (∃ inc ∈ incs, e = "Association not found for " ++ inc.model.name) ∨
      e = "Through model and otherKey required for belongsToMany" := by
  intro incs
  induction incs with
  | nil => intro e h; simp [includeCheck] at h
  | cons inc rest ih =>
    intro e h
    simp only [includeCheck] at h
    cases hfa : findAssoc ctx inc with
    | none =>
      simp only [hfa] at h
      exact Or.inl ⟨inc, List.mem_cons_self .., by cases h; rfl⟩
    | some a =>
      simp only [hfa] at h
      by_cases hcond : a.type = .belongsToMany ∧ (a.through = none ∨ a.otherKey = none)
      · rw [if_pos hcond] at h
        exact Or.inr (by cases h; rfl)
      · rw [if_neg hcond] at h
        rcases ih e h with ⟨inc', hmem, he⟩ | he
        · exact Or.inl ⟨inc', List.mem_cons_of_mem _ hmem, he⟩
        · exact Or.inr he

/-- C6.  When validation of the include list fails — an include whose
alias-and-target pair has no registered association, or a `belongsToMany`
association missing its junction model or `otherKey` — the find query
compiler fails synchronously with exactly that error (the first kind
naming the target entity), and `findAll` submits no query to the
warehouse at all. -/
theorem include_errors_fail_before_execution (ctx : ModelCtx) (ds : String)
    (o : FindOptions) (e : String)
    (h : includeCheck ctx o.includes = .error e) :
    buildSelectQuery ctx ds o none = .error e ∧
    findAllQueries ctx ds o = [] ∧
    ((∃ inc ∈ o.includes, e = "Association not found for " ++ inc.model.name) ∨
      e = "Through model and otherKey required for belongsToMany") := by
  have hp := includeCheck_error_processIncludes ctx ds o.includes e h
  have hb : buildSelectQuery ctx ds o none = .error e := by
    simp [buildSelectQuery, hp]
  refine ⟨hb, ?_, includeCheck_error_shape ctx o.includes e h⟩
  simp [findAllQueries, hb]

/-- C6 witness: with no registered associations, a find including `Order`
compiles to the `Association not found` error and executes nothing. -/
theorem include_errors_fail_before_execution_witness :
    buildSelectQuery userCtxNoAssoc "ds" { includes := [ordersInc] } none =
      .error "Association not found for Order" ∧
    findAllQueries userCtxNoAssoc "ds" { includes := [ordersInc] } = [] :=
  ⟨(include_errors_fail_before_execution userCtxNoAssoc "ds"
      { includes := [ordersInc] } "Association not found for Order" (by decide)).1,
   (include_errors_fail_before_execution userCtxNoAssoc "ds"
      { includes := [ordersInc] } "Association not found for Order" (by decide)).2.1⟩

theorem bwcSubs_spec : ∀ (ts : List WTree) (i : Nat),
    ((bwcSubs ts i).1.map (fun cp => "(" ++ cp.1 ++ ")") =
      (subClausesSpec ts i).1) ∧
    ((bwcSubs ts i).2 = (subClausesSpec ts i).2) := by
  intro ts
  induction ts with
  | nil => intro i; simp [bwcSubs, subClausesSpec]
  | cons t ts ih =>
    intro i
    simp only [bwcSubs, subClausesSpec, List.map_cons]
    exact ⟨by rw [(ih _).1], (ih _).2⟩

theorem bwcArr_spec : ∀ (vs : List Value) (i : Nat),
    bwcArr vs i =
      (((List.range vs.length).map (fun j => "param" ++ toString (i + j))).zip vs,
        i + vs.length) := by
  intro vs
  induction vs with
  | nil => intro i; simp [bwcArr]
  | cons v vs ih =>
    intro i
    simp only [bwcArr, ih (i + 1), List.length_cons, List.range_succ_eq_map,
      List.map_cons, List.zip_cons_cons, Prod.mk.injEq]
    refine ⟨?_, by omega⟩
    rw [List.map_map]
    congr 2
    apply List.map_congr_left
    intro j _
    simp only [Function.comp_apply]
    congr 2
    omega

/-- C5.  The predicate compiler dispatches on the key name: an array value
under the reserved key `and` or `or` compiles each element recursively
(threading the parameter index through the elements), parenthesizes each
resulting fragment, and joins them with the operator's SQL keyword; an
array value under any non-reserved key compiles to a ``field IN (...)``
fragment with exactly one generated parameter per array element, paired
with the elements in array order. -/
theorem where_key_dispatch (k : String) (i : Nat) :
    ((k = "and" ∨ k = "or") → ∀ ts,
      bwcEntry k (.sub ts) i =
        (String.intercalate (" " ++ opKeyword k ++ " ") (subClausesSpec ts i).1,
          subParamsSpec ts i,
          (subClausesSpec ts i).2)) ∧
    (k ≠ "and" → k ≠ "or" → ∀ vs,
      bwcEntry k (.varr vs) i =
        ("`" ++ k ++ "` IN (" ++
            String.intercalate ", "
              ((List.range vs.length).map
                (fun j => "@" ++ ("param" ++ toString (i + j)))) ++ ")",
          ((List.range vs.length).map (fun j => "param" ++ toString (i + j))).zip vs,
          i + vs.length)) := by
  constructor
  · intro hres ts
    simp only [bwcEntry, if_pos hres, subParamsSpec,
      (bwcSubs_spec ts i).1, (bwcSubs_spec ts i).2]
  · intro h1 h2 vs
    have hneg : ¬(k = "and" ∨ k = "or") := by
      rintro (h | h) <;> [exact h1 h; exact h2 h]
    simp only [bwcEntry, if_neg hneg, bwcArr_spec vs i, Prod.mk.injEq]
    refine ⟨?_, trivial⟩
    congr 2
    rw [show (fun p : String × Value => "@" ++ p.1) =
        (fun s => "@" ++ s) ∘ Prod.fst from rfl]
    rw [← List.map_map, List.map_fst_zip _ _ (by simp), List.map_map]
    rfl

/-- C5 witness at `{and: [{a:1},{b:2}]}` and `{tags: [1,2,3]}`. -/
theorem where_key_dispatch_witness :
    bwcEntry "and"
        (.sub [.mk [("a", .scalar (.int 1))], .mk [("b", .scalar (.int 2))]]) 0 =
      (String.intercalate (" " ++ opKeyword "and" ++ " ")
          (subClausesSpec
            [.mk [("a", .scalar (.int 1))], .mk [("b", .scalar (.int 2))]] 0).1,
        subParamsSpec
          [.mk [("a", .scalar (.int 1))], .mk [("b", .scalar (.int 2))]] 0,
        (subClausesSpec
          [.mk [("a", .scalar (.int 1))], .mk [("b", .scalar (.int 2))]] 0).2) ∧
    bwcEntry "tags" (.varr [.int 1, .int 2, .int 3]) 0 =
      ("`tags` IN (" ++
          String.intercalate ", "
            ((List.range 3).map (fun j => "@" ++ ("param" ++ toString (0 + j)))) ++ ")",
        ((List.range 3).map (fun j => "param" ++ toString (0 + j))).zip
          [.int 1, .int 2, .int 3],
        0 + 3) :=
  ⟨(where_key_dispatch "and" 0).1 (Or.inl rfl) _,
   (where_key_dispatch "tags" 0).2 (by decide) (by decide) _⟩

/-- C3 as amended.  The count query of `findAndCountAll` shares the data
query's WHERE clause (including alias-qualified include filters) but is
built over the bare base table: its FROM clause names only the model's
own table and carries none of the data query's JOIN clauses.  Both
queries are composed into one CTE statement, with the count attached as a
scalar column to every data row; under a fan-out join or a LIMIT the
count (computed join-free over the base table) need not match the number
of data rows returned. -/
theorem findAndCount_count_over_base_table (ctx : ModelCtx) (ds : String)
    (o : FindOptions) (r : FacResult)
    (h : buildFindAndCountQuery ctx ds o = .ok r) :
    r.countSql =
      "SELECT " ++
        (if o.distinct then
          "COUNT(DISTINCT `" ++ ctx.ref.tableName ++ "`.`" ++
            ctx.ref.primaryKey ++ "`)"
         else "COUNT(*)") ++
        " AS total_count FROM `" ++ ds ++ "." ++ ctx.ref.tableName ++
        "` AS `" ++ ctx.ref.tableName ++ "`" ++
        (if r.whereClause ≠ "" then " WHERE " ++ r.whereClause else "") ∧
    (∃ joins, r.dataFromSql =
      "FROM `" ++ ds ++ "." ++ ctx.ref.tableName ++ "` AS `" ++
        ctx.ref.tableName ++ "`" ++ joins ++
        (if r.whereClause ≠ "" then " WHERE " ++ r.whereClause else "")) ∧
    (∃ sel grp ord lim off, r.finalSql =
      cteCompose r.countSql sel r.dataFromSql grp ord lim off) := by
  cases hpr : processIncludes ctx ds o.includes with
  | error e =>
    rw [buildFindAndCountQuery, hpr] at h
    cases h
  | ok pr =>
    rw [buildFindAndCountQuery, hpr] at h
    cases h
    refine ⟨rfl, ⟨pr.1, rfl⟩, ⟨_, _, _, _, _, rfl⟩⟩

set_option maxRecDepth 8192 in
/-- C3 amended witness at the concrete user/orders find-and-count. -/
theorem findAndCount_count_over_base_table_witness :
    c3res.countSql =
      "SELECT " ++
        (if c3opts.distinct then
          "COUNT(DISTINCT `" ++ userCtx.ref.tableName ++ "`.`" ++
            userCtx.ref.primaryKey ++ "`)"
         else "COUNT(*)") ++
        " AS total_count FROM `" ++ "ds" ++ "." ++ userCtx.ref.tableName ++
        "` AS `" ++ userCtx.ref.tableName ++ "`" ++
        (if c3res.whereClause ≠ "" then " WHERE " ++ c3res.whereClause else "") :=
  (findAndCount_count_over_base_table userCtx "ds" c3opts c3res (by decide)).1

theorem setPM_map_fst (pm : List (Value × Obj)) (k : Value) (o : Obj) :
    (setPM pm k o).map Prod.fst = pm.map Prod.fst := by
  induction pm with
  | nil => rfl
  | cons e rest ih =>
    simp only [setPM, List.map_cons] at ih ⊢
    by_cases he : e.1 = k
    · simp [he, ih]
    · simp [he, ih]

theorem mem_setPM (pm : List (Value × Obj)) (k : Value) (o : Obj)
    (e : Value × Obj) (h : e ∈ setPM pm k o) : e = (k, o) ∨ e ∈ pm := by
  induction pm with
  | nil => cases h
  | cons hd rest ih =>
    simp only [setPM, List.map_cons, List.mem_cons] at h
    rcases h with h | h
    · by_cases hh : hd.1 = k
      · rw [if_pos hh] at h; exact Or.inl h
      · rw [if_neg hh] at h
        exact Or.inr (h ▸ List.mem_cons_self ..)
    · rcases ih h with h' | h'
      · exact Or.inl h'
      · exact Or.inr (List.mem_cons_of_mem _ h')

theorem lookupPM_mem (pm : List (Value × Obj)) (k : Value) (p : Obj)
    (h : lookupPM pm k = some p) : (k, p) ∈ pm := by
  simp only [lookupPM, Option.map_eq_some'] at h
  obtain ⟨e, he, hp⟩ := h
  have hm := List.mem_of_find?_eq_some he
  have hk := List.find?_some he
  simp only [decide_eq_true_eq] at hk
  obtain ⟨e1, e2⟩ := e
  dsimp only at hk hp
  subst hk
  subst hp
  exact hm

theorem lookupPM_none_not_mem (pm : List (Value × Obj)) (k : Value)
    (h : lookupPM pm k = none) : k ∉ pm.map Prod.fst := by
  intro hmem
  simp only [lookupPM, Option.map_eq_none', List.find?_eq_none] at h
  obtain ⟨e, he, hk⟩ := List.mem_map.mp hmem
  exact absurd hk (by simpa using h e he)

theorem lookupKey_attr_map {β : Type} (g : String → β) :
    ∀ (l : List (String × DataType)) (k : String), k ∈ l.map Prod.fst →
      lookupKey (l.map (fun fa => (fa.1, g fa.1))) k = some (g k) := by
  intro l
  induction l with
  | nil => intro k h; cases h
  | cons fa rest ih =>
    intro k h
    simp only [List.map_cons, lookupKey_cons]
    by_cases hk : fa.1 = k
    · rw [if_pos hk, hk]
    · rw [if_neg hk]
      rcases List.mem_cons.mp h with h' | h'
      · exact absurd h'.symm hk
      · exact ih k h'

theorem rowChild_pk (m : ModelRef) (asName : String) (row : Row)
    (hpk : m.primaryKey ∈ m.attributes.map Prod.fst) :
    getVal (rowChild m asName row) m.primaryKey =
      getVal row (asName ++ "_" ++ m.primaryKey) := by
  have h := lookupKey_attr_map (fun f => getVal row (asName ++ "_" ++ f))
    m.attributes m.primaryKey hpk
  unfold getVal rowChild
  rw [h]
  rfl

theorem initObj_val_map (g : String → Value) :
    ∀ (attrs : List (String × DataType)),
      InitObj (attrs.map (fun fa => (fa.1, Slot.val (g fa.1)))) := by
  intro attrs
  induction attrs with
  | nil => intro k cs h; simp [lookupKey] at h
  | cons fa rest ih =>
    intro k cs h
    simp only [List.map_cons, lookupKey_cons] at h
    by_cases hk : fa.1 = k
    · rw [if_pos hk] at h; cases h
    · rw [if_neg hk] at h; exact ih k cs h

theorem initObj_objSet_many (o : Obj) (k : String)
    (h : InitObj o) : InitObj (objSet o k (Slot.many [])) := by
  intro k' cs hlk
  by_cases hk : k' = k
  · subst hk
    rw [lookupKey_objSet_self] at hlk
    cases hlk
    rfl
  · rw [lookupKey_objSet_other _ _ _ _ hk] at hlk
    exact h k' cs hlk

theorem initObj_objSet_one (o : Obj) (k : String)
    (h : InitObj o) : InitObj (objSet o k (Slot.one none)) := by
  intro k' cs hlk
  by_cases hk : k' = k
  · subst hk
    rw [lookupKey_objSet_self] at hlk
    cases hlk
  · rw [lookupKey_objSet_other _ _ _ _ hk] at hlk
    exact h k' cs hlk

theorem newParent_initObj (ctx : ModelCtx) (includes : List Inc) (row : Row) :
    InitObj (newParent ctx includes row) := by
  unfold newParent
  have hbase : InitObj (ctx.ref.attributes.map
      (fun fa => (fa.1, Slot.val (getVal row (ctx.ref.tableName ++ "_" ++ fa.1))))) :=
    initObj_val_map (fun f => getVal row (ctx.ref.tableName ++ "_" ++ f))
      ctx.ref.attributes
  generalize ctx.ref.attributes.map
      (fun fa => (fa.1, Slot.val (getVal row (ctx.ref.tableName ++ "_" ++ fa.1)))) = base at hbase ⊢
  induction includes generalizing base with
  | nil => exact hbase
  | cons inc rest ih =>
    simp only [List.foldl_cons]
    apply ih
    cases hfa : findAssocByAs ctx inc.resolvedAs with
    | none => simp only [hfa]; exact hbase
    | some a =>
      simp only [hfa]
      by_cases hty : a.type = .hasMany ∨ a.type = .belongsToMany
      · rw [if_pos hty]; exact initObj_objSet_many _ _ hbase
      · rw [if_neg hty]; exact initObj_objSet_one _ _ hbase

theorem initObj_good (includes : List Inc) (o : Obj) (h : InitObj o) :
    GoodObj includes o := by
  intro inc _ cs hlk
  rw [h _ _ hlk]
  exact List.nodup_nil

theorem addChild_preserves_good (ctx : ModelCtx) (includes : List Inc)
    (row : Row) (hal : (includes.map Inc.resolvedAs).Nodup)
    (hpk : ∀ inc ∈ includes, inc.model.primaryKey ∈ inc.model.attributes.map Prod.fst)
    (o : Obj) (inc0 : Inc) (h0 : inc0 ∈ includes)
    (hg : GoodObj includes o) : GoodObj includes (addChild ctx row o inc0) := by
  unfold addChild
  cases hfa : findAssocByAs ctx inc0.resolvedAs with
  | none => simp only [hfa]; exact hg
  | some a =>
    simp only [hfa]
    by_cases hnull : getVal row (inc0.resolvedAs ++ "_" ++ inc0.model.primaryKey) =
        Value.null
    · rw [if_pos hnull]; exact hg
    · rw [if_neg hnull]
      by_cases hty : a.type = .hasMany ∨ a.type = .belongsToMany
      · rw [if_pos hty]
        cases hls : lookupKey o inc0.resolvedAs with
        | none => exact hg
        | some s =>
          cases s with
          | val v => exact hg
          | one c => exact hg
          | many cs =>
            dsimp only
            by_cases hdup : cs.any (fun c =>
                getVal c inc0.model.primaryKey =
                  getVal row (inc0.resolvedAs ++ "_" ++ inc0.model.primaryKey))
            · rw [if_pos hdup]; exact hg
            · rw [if_neg hdup]
              intro inc hinc cs' hlk
              by_cases has : inc.resolvedAs = inc0.resolvedAs
              · have hii : inc = inc0 :=
                  List.inj_on_of_nodup_map hal hinc h0 has
                subst hii
                rw [has, lookupKey_objSet_self] at hlk
                cases hlk
                rw [List.map_append]
                rw [List.nodup_append]
                refine ⟨hg inc hinc cs hls, List.nodup_singleton _, ?_⟩
                intro x hx hx1
                simp only [List.map_cons, List.map_nil, List.mem_singleton] at hx1
                subst hx1
                rw [rowChild_pk _ _ _ (hpk inc hinc)] at hx
                obtain ⟨c, hc, hcx⟩ := List.mem_map.mp hx
                rw [List.any_eq_true] at hdup
                exact hdup ⟨c, hc, by simp [hcx]⟩
              · rw [lookupKey_objSet_other _ _ _ _ has] at hlk
                exact hg inc hinc cs' hlk
      · rw [if_neg hty]
        intro inc hinc cs' hlk
        by_cases has : inc.resolvedAs = inc0.resolvedAs
        · rw [has, lookupKey_objSet_self] at hlk
          cases hlk
        · rw [lookupKey_objSet_other _ _ _ _ has] at hlk
          exact hg inc hinc cs' hlk

theorem foldl_addChild_good (ctx : ModelCtx) (includes : List Inc) (row : Row)
    (hal : (includes.map Inc.resolvedAs).Nodup)
    (hpk : ∀ inc ∈ includes, inc.model.primaryKey ∈ inc.model.attributes.map Prod.fst) :
    ∀ (l : List Inc), (∀ x ∈ l, x ∈ includes) → ∀ (o : Obj),
      GoodObj includes o → GoodObj includes (l.foldl (addChild ctx row) o) := by
  intro l
  induction l with
  | nil => intro _ o hg; exact hg
  | cons inc rest ih =>
    intro hsub o hg
    simp only [List.foldl_cons]
    exact ih (fun x hx => hsub x (List.mem_cons_of_mem _ hx)) _
      (addChild_preserves_good ctx includes row hal hpk o inc
        (hsub inc (List.mem_cons_self ..)) hg)

theorem nestFold_good (ctx : ModelCtx) (includes : List Inc)
    (hal : (includes.map Inc.resolvedAs).Nodup)
    (hpk : ∀ inc ∈ includes, inc.model.primaryKey ∈ inc.model.attributes.map Prod.fst) :
    ∀ (rows : List Row) (pm : List (Value × Obj)),
      (∀ e ∈ pm, GoodObj includes e.2) →
      ∀ e ∈ rows.foldl (nestStep ctx includes) pm, GoodObj includes e.2 := by
  intro rows
  induction rows with
  | nil => intro pm hpm e he; exact hpm e he
  | cons row rows ih =>
    intro pm hpm
    simp only [List.foldl_cons]
    apply ih
    intro e he
    simp only [nestStep] at he
    by_cases hnull : getVal row (ctx.ref.tableName ++ "_" ++ ctx.ref.primaryKey) =
        Value.null
    · rw [if_pos hnull] at he; exact hpm e he
    · rw [if_neg hnull] at he
      cases hlp : lookupPM pm (getVal row (ctx.ref.tableName ++ "_" ++ ctx.ref.primaryKey)) with
      | some p =>
        simp only [hlp] at he
        rcases mem_setPM _ _ _ _ he with h' | h'
        · subst h'
          exact foldl_addChild_good ctx includes row hal hpk includes
            (fun x hx => hx) p (hpm _ (lookupPM_mem _ _ _ hlp))
        · exact hpm e h'
      | none =>
        simp only [hlp] at he
        rcases List.mem_append.mp he with h' | h'
        · exact hpm e h'
        · simp only [List.mem_singleton] at h'
          subst h'
          exact foldl_addChild_good ctx includes row hal hpk includes
            (fun x hx => hx) _
            (initObj_good includes _ (newParent_initObj ctx includes row))

theorem nestFold_keys (ctx : ModelCtx) (includes : List Inc) :
    ∀ (rows : List Row) (pm : List (Value × Obj)),
      (rows.foldl (nestStep ctx includes) pm).map Prod.fst =
        rows.foldl
          (fun ks row =>
            let pk := getVal row (ctx.ref.tableName ++ "_" ++ ctx.ref.primaryKey)
            if pk = Value.null ∨ pk ∈ ks then ks else ks ++ [pk])
          (pm.map Prod.fst) := by
  intro rows
  induction rows with
  | nil => intro pm; rfl
  | cons row rows ih =>
    intro pm
    simp only [List.foldl_cons]
    rw [ih]
    congr 1
    simp only [nestStep]
    by_cases hnull : getVal row (ctx.ref.tableName ++ "_" ++ ctx.ref.primaryKey) =
        Value.null
    · rw [if_pos hnull]
      simp [hnull]
    · rw [if_neg hnull]
      cases hlp : lookupPM pm (getVal row (ctx.ref.tableName ++ "_" ++ ctx.ref.primaryKey)) with
      | some p =>
        have hmem : getVal row (ctx.ref.tableName ++ "_" ++ ctx.ref.primaryKey) ∈
            pm.map Prod.fst :=
          List.mem_map.mpr ⟨_, lookupPM_mem _ _ _ hlp, rfl⟩
        simp only [hlp]
        rw [setPM_map_fst]
        simp [hmem]
      | none =>
        have hnmem := lookupPM_none_not_mem _ _ hlp
        simp only [hlp]
        simp [hnull, hnmem]

/-- C4.  Reassembly is idempotent under row duplication: in every object
produced by `nestAssociations`, every collection slot holds children with
pairwise-distinct primary-key values (a child reappearing in further
flattened rows of the same parent is appended at most once); the output
array order is exactly the order in which each distinct non-null parent
key is first seen in the rows; and for a singular association the row
step overwrites the slot with the row's child unconditionally.
(Hypotheses: distinct resolved include aliases, and each included model
declares its primary key among its attributes — both hold for any
well-formed registration.) -/
theorem nest_dedup_order_overwrite (ctx : ModelCtx) (includes : List Inc)
    (rows : List Row) (hal : (includes.map Inc.resolvedAs).Nodup)
    (hpk : ∀ inc ∈ includes, inc.model.primaryKey ∈ inc.model.attributes.map Prod.fst)
    (hne : includes ≠ []) :
    (∀ o ∈ nestAssociations ctx rows includes, ∀ inc ∈ includes, ∀ cs,
        lookupKey o inc.resolvedAs = some (Slot.many cs) →
        (cs.map (fun c => getVal c inc.model.primaryKey)).Nodup) ∧
    (nestFold ctx includes rows).map Prod.fst = firstSeenKeys ctx rows ∧
    nestAssociations ctx rows includes = (nestFold ctx includes rows).map Prod.snd ∧
    (∀ (p : Obj) (inc : Inc) (a : Assoc) (row : Row),
      findAssocByAs ctx inc.resolvedAs = some a →
      ¬(a.type = .hasMany ∨ a.type = .belongsToMany) →
      getVal row (inc.resolvedAs ++ "_" ++ inc.model.primaryKey) ≠ Value.null →
      lookupKey (addChild ctx row p inc) inc.resolvedAs =
        some (Slot.one (some (rowChild inc.model inc.resolvedAs row)))) := by
  have hmap : nestAssociations ctx rows includes =
      (nestFold ctx includes rows).map Prod.snd := by
    cases includes with
    | nil => exact absurd rfl hne
    | cons a l => rfl
  have hkeys : (nestFold ctx includes rows).map Prod.fst =
      firstSeenKeys ctx rows := by
    have hk := nestFold_keys ctx includes rows []
    simpa [nestFold, firstSeenKeys] using hk
  refine ⟨?_, hkeys, hmap, ?_⟩
  · intro o ho inc hinc cs hlk
    rw [hmap] at ho
    obtain ⟨e, he, heo⟩ := List.mem_map.mp ho
    have hg := nestFold_good ctx includes hal hpk rows [] (by intro e' h'; cases h') e he
    exact (heo ▸ hg) inc hinc cs hlk
  · intro p inc a row hfa hty hnull
    unfold addChild
    simp only [hfa]
    rw [if_neg hnull, if_neg hty]
    exact lookupKey_objSet_self _ _ _

/-- C4 witness at the triply-duplicated flattened row. -/
theorem nest_dedup_order_overwrite_witness :
    (nestFold userCtx [ordersInc] dupRows).map Prod.fst =
      firstSeenKeys userCtx dupRows :=
  (nest_dedup_order_overwrite userCtx [ordersInc] dupRows (by decide)
    (by decide) (List.cons_ne_nil _ _)).2.1

end BqOrm
